import Mathlib

/-!
Verification of the iFrame_Concept control library.

Strings are modelled as `List Char`, JavaScript numbers as `ℚ` (exact
rationals; the claims settled here do not hinge on binary floating-point
artifacts), and functions that `throw` as functions into `Except`/`Option`
or as functions returning the error alongside the (unchanged) state.
-/

namespace IFrame

/-! ## controlUtils: composite-id encode/decode (`generateID` / `splitID`)

Source (`controlUtils.js`):
`const delimiter = '-_-'`,
`generateID(selector, parameter) = selector + delimiter + parameter`,
`splitID(ID) = { selector: ID.split(delimiter)[0], parameter: ID.split(delimiter)[1] }`. -/

/-- The fixed delimiter `'-_-'` from `controlUtils.js`. -/
def delimiter : List Char := ['-', '_', '-']

/-- `generateID(selector, parameter)`: string concatenation with the delimiter. -/
def generateID (selector parameter : List Char) : List Char :=
  selector ++ delimiter ++ parameter

/-- The string starts with an occurrence of the delimiter `'-_-'`. -/
def startsWithDelim (l : List Char) : Bool :=
  delimiter.isPrefixOf l

/-- JavaScript `String.prototype.split('-_-')`: scan left to right, cut at each
leftmost non-overlapping occurrence of the delimiter.  `acc` holds the
characters of the current piece in reverse. -/
def splitDelimGo : List Char → List Char → List (List Char)
  | [], acc => [acc.reverse]
  | c :: rest, acc =>
    if startsWithDelim (c :: rest) then
      acc.reverse :: splitDelimGo (rest.drop 2) []
    else
      splitDelimGo rest (c :: acc)
  termination_by l _ => l.length
  decreasing_by
  · simp only [List.length_cons, List.length_drop]
    omega
  · simp

/-- `ID.split(delimiter)`. -/
def splitDelim (l : List Char) : List (List Char) :=
  splitDelimGo l []

/-- `splitID(ID)`: `split[0]` is always defined (a split result is never
empty); `split[1]` is `undefined` when the delimiter does not occur in `ID`,
hence an `Option`. -/
def splitID (ID : List Char) : List Char × Option (List Char) :=
  (splitDelim ID |>.headD [], (splitDelim ID).get? 1)

/-- The string contains an occurrence of the delimiter `'-_-'`. -/
def hasDelim : List Char → Bool
  | [] => false
  | c :: rest => startsWithDelim (c :: rest) || hasDelim rest

theorem startsWithDelim_iff (l : List Char) :
    startsWithDelim l = true ↔ ∃ t, l = delimiter ++ t := by
  unfold startsWithDelim
  rw [List.isPrefixOf_iff_prefix]
  constructor
  · rintro ⟨t, ht⟩; exact ⟨t, ht.symm⟩
  · rintro ⟨t, ht⟩; exact ⟨t, ht.symm⟩

theorem startsWithDelim_append_delim (b : List Char) :
    startsWithDelim (delimiter ++ b) = true := by
  rw [startsWithDelim_iff]; exact ⟨b, rfl⟩

/-- A delimiter-free string is split into the single piece it is. -/
theorem splitDelimGo_no_delim (b : List Char) (hb : hasDelim b = false) :
    ∀ acc, splitDelimGo b acc = [acc.reverse ++ b] := by
  induction b with
  | nil => intro acc; simp [splitDelimGo]
  | cons c rest ih =>
    intro acc
    rw [hasDelim, Bool.or_eq_false_iff] at hb
    rw [splitDelimGo, if_neg (by simp [hb.1])]
    rw [ih hb.2 (c :: acc)]
    simp

/-- Splitting cuts exactly at the boundary delimiter, provided the prefix
holds no delimiter and does not end in `"-_"` (which would merge with the
delimiter's leading `'-'` into an earlier occurrence). -/
theorem splitDelimGo_boundary (b : List Char) :
    ∀ (a acc : List Char), hasDelim a = false → ¬ (['-', '_'] <:+ a) →
      splitDelimGo (a ++ delimiter ++ b) acc =
        (acc.reverse ++ a) :: splitDelimGo b [] := by
  intro a
  induction a with
  | nil =>
    intro acc _ _
    rw [List.nil_append, splitDelimGo.eq_def]
    simp only [delimiter, List.cons_append, List.nil_append]
    rw [if_pos (by exact startsWithDelim_append_delim b)]
    simp
  | cons c a' ih =>
    intro acc ha hsuf
    rw [hasDelim, Bool.or_eq_false_iff] at ha
    simp only [List.append_assoc] at ih ⊢
    have hne : startsWithDelim (c :: (a' ++ (delimiter ++ b))) = false := by
      by_contra h
      rw [Bool.not_eq_false, startsWithDelim_iff] at h
      obtain ⟨t, ht⟩ := h
      rw [show delimiter ++ t = '-' :: '_' :: '-' :: t from rfl,
        List.cons.injEq] at ht
      obtain ⟨hc, ht⟩ := ht
      match a', ht with
      | [], ht =>
        rw [show ([] : List Char) ++ (delimiter ++ b) = '-' :: '_' :: '-' :: b
          from rfl, List.cons.injEq] at ht
        exact absurd ht.1 (by decide)
      | [x], ht =>
        simp only [List.cons_append, List.nil_append, List.cons.injEq] at ht
        exact hsuf ⟨[], by simp [hc, ht.1]⟩
      | x :: y :: a'', ht =>
        simp only [List.cons_append, List.cons.injEq] at ht
        have hsw : startsWithDelim (c :: x :: y :: a'') = true := by
          rw [startsWithDelim_iff]
          exact ⟨a'', by simp [delimiter, hc, ht.1, ht.2.1]⟩
        rw [ha.1] at hsw
        exact absurd hsw (by decide)
    rw [List.cons_append, splitDelimGo, if_neg (by simp [hne])]
    rw [ih (c :: acc) ha.2
      (fun h => hsuf (h.trans (List.suffix_cons c a')))]
    simp

/-- C1 (counterexample): the round-trip invariant
`splitID(generateID(a,b)) = {selector: a, parameter: b}` fails for
`a = "x-_"`, `b = "y"` although neither contains the delimiter `'-_-'`:
the concatenation `"x-_-_-y"` has its first delimiter occurrence at index 1,
so `splitID` returns `{selector: "x", parameter: "_-y"}`. -/
theorem splitID_generateID_failure :
    hasDelim ['x', '-', '_'] = false ∧ hasDelim ['y'] = false ∧
      splitID (generateID ['x', '-', '_'] ['y']) =
        (['x'], some ['_', '-', 'y']) ∧
      splitID (generateID ['x', '-', '_'] ['y']) ≠
        (['x', '-', '_'], some ['y']) := by
  refine ⟨by decide, by decide, ?_, ?_⟩ <;>
    simp [splitID, splitDelim, generateID, delimiter, splitDelimGo,
      startsWithDelim, List.isPrefixOf]

/-- C1 (amended): `splitID(generateID(a,b)) = {selector: a, parameter: b}`
whenever neither `a` nor `b` contains the delimiter `'-_-'` and additionally
the selector `a` does not end in `"-_"`. -/
theorem splitID_generateID (a b : List Char)
    (ha : hasDelim a = false) (hb : hasDelim b = false)
    (hsuf : ¬ (['-', '_'] <:+ a)) :
    splitID (generateID a b) = (a, some b) := by
  have h1 : splitDelim (generateID a b) = a :: [b] := by
    unfold splitDelim generateID
    rw [splitDelimGo_boundary b a [] ha hsuf,
      splitDelimGo_no_delim b hb []]
    simp
  simp [splitID, h1]

/-- C1 witness: the amended round-trip at `selector = "body"`,
`parameter = "color"`. -/
theorem splitID_generateID_witness :
    hasDelim ['b', 'o', 'd', 'y'] = false ∧
      hasDelim ['c', 'o', 'l', 'o', 'r'] = false ∧
      ¬ (['-', '_'] <:+ ['b', 'o', 'd', 'y']) ∧
      splitID (generateID ['b', 'o', 'd', 'y'] ['c', 'o', 'l', 'o', 'r']) =
        (['b', 'o', 'd', 'y'], some ['c', 'o', 'l', 'o', 'r']) :=
  ⟨by decide, by decide, by decide,
    splitID_generateID _ _ (by decide) (by decide) (by decide)⟩

/-! ## utilities.js: `decimalPlaces`

Source:
```
function decimalPlaces(num) {
    const match = ('' + num).match(/(?:\.(\d+))?(?:[eE]([+-]?\d+))?$/);
    if (!match) return 0;
    const frac = match[1] ? match[1].length : 0;
    const exp = match[2] ? +match[2] : 0;
    return Math.max(0, frac - exp);
}
```
The regex is embedded over the decimal string form: `jsMatchGroups` performs
the leftmost-match scan of `String.prototype.match` (the all-optional pattern
anchored at `$` always matches, at the latest as the empty match at the end of
the string; greedy `\d+` runs need no backtracking here because shortening a
digit run leaves the scan position on a digit, on which neither the optional
exponent group nor `$` can succeed). -/

/-- Numeric value of a digit string (what JavaScript unary `+` computes on the
captured exponent digits). -/
def digitsVal (l : List Char) : Nat :=
  l.foldl (fun a c => 10 * a + (c.toNat - '0'.toNat)) 0

/-- `\d+$`: the remainder must be a non-empty run of digits reaching the end. -/
def expDigitsEnd (l : List Char) : Option Nat :=
  if l ≠ [] ∧ l.all Char.isDigit then some (digitsVal l) else none

/-- `[+-]?\d+$` after the `e`/`E`. -/
def signedExpEnd : List Char → Option Int
  | [] => none
  | c :: r =>
    if c = '+' then (expDigitsEnd r).map fun n => (n : Int)
    else if c = '-' then (expDigitsEnd r).map fun n => -(n : Int)
    else (expDigitsEnd (c :: r)).map fun n => (n : Int)

/-- `[eE][+-]?\d+$`. -/
def expEnd : List Char → Option Int
  | [] => none
  | c :: r => if c = 'e' ∨ c = 'E' then signedExpEnd r else none

/-- One attempt of `(?:\.(\d+))?(?:[eE]([+-]?\d+))?$` at a fixed position:
returns the two capture groups on success. -/
def matchFrom : List Char → Option (Option (List Char) × Option Int)
  | [] => some (none, none)
  | c :: rest =>
    if c = '.' then
      let d := rest.takeWhile Char.isDigit
      let after := rest.dropWhile Char.isDigit
      if d = [] then none
      else if after = [] then some (some d, none)
      else
        match expEnd after with
        | some e => some (some d, some e)
        | none => none
    else
      match expEnd (c :: rest) with
      | some e => some (none, some e)
      | none => none

/-- Leftmost-match scan of `String.prototype.match`: try each start position
left to right; the empty match at the end of the string always succeeds. -/
def jsMatchGroups : List Char → Option (List Char) × Option Int
  | [] => (none, none)
  | c :: rest =>
    match matchFrom (c :: rest) with
    | some r => r
    | none => jsMatchGroups rest

/-- `decimalPlaces`, over the decimal string form of the number. -/
def decimalPlaces (l : List Char) : Int :=
  let m := jsMatchGroups l
  let frac : Int := match m.1 with | some d => (d.length : Int) | none => 0
  let exp : Int := (m.2).getD 0
  max 0 (frac - exp)

/-- A scan position whose first character is neither `'.'` nor `'e'`/`'E'`
(e.g. a digit or a minus sign) cannot start a non-empty match. -/
theorem matchFrom_skip (c : Char) (rest : List Char)
    (h1 : c ≠ '.') (h2 : c ≠ 'e') (h3 : c ≠ 'E') :
    matchFrom (c :: rest) = none := by
  rw [matchFrom, if_neg h1, expEnd, if_neg (fun h => h.elim h2 h3)]

/-- The leftmost-match scan passes over any prefix free of `'.'`/`'e'`/`'E'`
— in particular over a minus sign and the integer digits. -/
theorem jsMatchGroups_skip_prefix (ip rest : List Char)
    (h : ∀ c ∈ ip, c ≠ '.' ∧ c ≠ 'e' ∧ c ≠ 'E') :
    jsMatchGroups (ip ++ rest) = jsMatchGroups rest := by
  induction ip with
  | nil => rfl
  | cons d ip' ih =>
    obtain ⟨h1, h2, h3⟩ := h d (List.mem_cons_self d _)
    rw [List.cons_append, jsMatchGroups, matchFrom_skip d _ h1 h2 h3]
    exact ih fun c hc => h c (List.mem_cons_of_mem d hc)

theorem takeWhile_digits_append (frac l : List Char)
    (h : ∀ c ∈ frac, c.isDigit) :
    (frac ++ l).takeWhile Char.isDigit = frac ++ l.takeWhile Char.isDigit ∧
      (frac ++ l).dropWhile Char.isDigit = l.dropWhile Char.isDigit := by
  induction frac with
  | nil => simp
  | cons d frac' ih =>
    have hd : d.isDigit := h d (List.mem_cons_self d _)
    have := ih fun c hc => h c (List.mem_cons_of_mem d hc)
    simp [List.takeWhile_cons, List.dropWhile_cons, hd, this.1, this.2]

theorem matchFrom_dot (rest : List Char) :
    matchFrom ('.' :: rest) =
      (if rest.takeWhile Char.isDigit = [] then none
       else if rest.dropWhile Char.isDigit = [] then
         some (some (rest.takeWhile Char.isDigit), none)
       else
         match expEnd (rest.dropWhile Char.isDigit) with
         | some e => some (some (rest.takeWhile Char.isDigit), some e)
         | none => none) := by
  rw [matchFrom, if_pos rfl]

theorem takeWhile_eq_self_of_digits (frac : List Char)
    (h : ∀ c ∈ frac, c.isDigit) :
    frac.takeWhile Char.isDigit = frac ∧ frac.dropWhile Char.isDigit = [] := by
  have := takeWhile_digits_append frac [] h
  simpa using this

theorem expDigitsEnd_eval (ed : List Char) (hne : ed ≠ [])
    (hed : ∀ c ∈ ed, c.isDigit) :
    expDigitsEnd ed = some (digitsVal ed) := by
  rw [expDigitsEnd,
    if_pos ⟨hne, by rw [List.all_eq_true]; exact fun c hc => hed c hc⟩]

theorem expEnd_neg (ed : List Char) (hne : ed ≠ [])
    (hed : ∀ c ∈ ed, c.isDigit) :
    expEnd ('e' :: '-' :: ed) = some (-(digitsVal ed : Int)) := by
  rw [expEnd, if_pos (Or.inl rfl), signedExpEnd, if_neg (by decide),
    if_pos rfl, expDigitsEnd_eval ed hne hed]
  rfl

theorem expEnd_plus (ed : List Char) (hne : ed ≠ [])
    (hed : ∀ c ∈ ed, c.isDigit) :
    expEnd ('e' :: '+' :: ed) = some ((digitsVal ed : Int)) := by
  rw [expEnd, if_pos (Or.inl rfl), signedExpEnd, if_pos rfl,
    expDigitsEnd_eval ed hne hed]
  rfl

theorem expEnd_unsigned (d : Char) (ds : List Char) (hd : d.isDigit)
    (hed : ∀ c ∈ d :: ds, c.isDigit) :
    expEnd ('e' :: d :: ds) = some ((digitsVal (d :: ds) : Int)) := by
  rw [expEnd, if_pos (Or.inl rfl), signedExpEnd,
    if_neg (by rintro rfl; exact absurd hd (by decide)),
    if_neg (by rintro rfl; exact absurd hd (by decide)),
    expDigitsEnd_eval _ (by simp) hed]
  rfl

/-- A match attempt at a `'.'` followed by a digit run and an exponent
suffix captures both groups. -/
theorem jsMatchGroups_dot_exp (frac tail : List Char) (ev : Int)
    (hne : frac ≠ [])
    (htw : (frac ++ tail).takeWhile Char.isDigit = frac)
    (hdw : (frac ++ tail).dropWhile Char.isDigit = tail)
    (htne : tail ≠ []) (hexp : expEnd tail = some ev) :
    jsMatchGroups ('.' :: (frac ++ tail)) = (some frac, some ev) := by
  rw [jsMatchGroups, matchFrom_dot, htw, hdw, if_neg hne, if_neg htne, hexp]

/-- A match attempt at an `'e'` heading a full exponent suffix captures
only the exponent group. -/
theorem jsMatchGroups_expHead (rest : List Char) (ev : Int)
    (hexp : expEnd ('e' :: rest) = some ev) :
    jsMatchGroups ('e' :: rest) = (none, some ev) := by
  have hm : matchFrom ('e' :: rest) = some (none, some ev) := by
    rw [matchFrom, if_neg (by decide), hexp]
  rw [jsMatchGroups, hm]

/-- C9: `decimalPlaces` counts the fractional digits of the number's
decimal string form, adjusted by subtracting the exponent when the string
carries an exponent suffix (never returning less than 0), and returns 0 on
every integer form.  The clauses cover every string form JavaScript prints
for a finite number — an optionally signed digit run (`"10"`, `"-10"`),
signed decimals (`"-3.14"`), and the exponent spellings with a `-`-signed,
`+`-signed or bare exponent, with or without a fractional part
(`"1.5e+21"`, `"1e+21"`, `"1e-7"`, `"1.25e3"`): the prefix before the `.`
or `e` may hold any characters other than `.`/`e`/`E`, so a leading minus
sign is included.  The concrete examples check the spec's values
`decimalPlaces(3.14159) = 5`, `decimalPlaces(10) = 0`,
`decimalPlaces(1.23e-4) = 6` (the latter both as `"1.23e-4"` and as the
expanded string `"0.000123"` JavaScript prints for that number), and that
the integer forms `"-10"`, `"1e+21"`, `"1.5e+21"`, `"-1.5e+21"` and
`"1.25e3"` all give 0. -/
theorem decimalPlaces_spec :
    (∀ s : List Char, (∀ c ∈ s, c ≠ '.' ∧ c ≠ 'e' ∧ c ≠ 'E') →
      decimalPlaces s = 0) ∧
    (∀ ip frac : List Char,
      (∀ c ∈ ip, c ≠ '.' ∧ c ≠ 'e' ∧ c ≠ 'E') → frac ≠ [] →
      (∀ c ∈ frac, c.isDigit) →
      decimalPlaces (ip ++ '.' :: frac) = frac.length) ∧
    (∀ ip frac ed : List Char,
      (∀ c ∈ ip, c ≠ '.' ∧ c ≠ 'e' ∧ c ≠ 'E') → frac ≠ [] →
      (∀ c ∈ frac, c.isDigit) → ed ≠ [] → (∀ c ∈ ed, c.isDigit) →
      decimalPlaces (ip ++ '.' :: (frac ++ 'e' :: '-' :: ed))
          = (frac.length : Int) + digitsVal ed ∧
        decimalPlaces (ip ++ '.' :: (frac ++ 'e' :: '+' :: ed))
          = max 0 ((frac.length : Int) - digitsVal ed) ∧
        decimalPlaces (ip ++ '.' :: (frac ++ 'e' :: ed))
          = max 0 ((frac.length : Int) - digitsVal ed)) ∧
    (∀ ip ed : List Char,
      (∀ c ∈ ip, c ≠ '.' ∧ c ≠ 'e' ∧ c ≠ 'E') →
      ed ≠ [] → (∀ c ∈ ed, c.isDigit) →
      decimalPlaces (ip ++ 'e' :: '-' :: ed) = digitsVal ed ∧
        decimalPlaces (ip ++ 'e' :: '+' :: ed) = 0 ∧
        decimalPlaces (ip ++ 'e' :: ed) = 0) ∧
    (decimalPlaces "3.14159".toList = 5 ∧ decimalPlaces "10".toList = 0 ∧
      decimalPlaces "-10".toList = 0 ∧ decimalPlaces "-3.14".toList = 2 ∧
      decimalPlaces "0.000123".toList = 6 ∧
      decimalPlaces "1.23e-4".toList = 6 ∧
      decimalPlaces "1e+21".toList = 0 ∧
      decimalPlaces "1.5e+21".toList = 0 ∧
      decimalPlaces "-1.5e+21".toList = 0 ∧
      decimalPlaces "1e-7".toList = 7 ∧
      decimalPlaces "1.25e3".toList = 0) := by
  have he : Char.isDigit 'e' = false := by decide
  refine ⟨?_, ?_, ?_, ?_, by decide, by decide, by decide, by decide,
    by decide, by decide, by decide, by decide, by decide, by decide,
    by decide⟩
  · intro s hs
    have h1 : jsMatchGroups (s ++ []) = jsMatchGroups [] :=
      jsMatchGroups_skip_prefix s [] hs
    rw [List.append_nil] at h1
    simp [decimalPlaces, h1, jsMatchGroups]
  · intro ip frac hip hne hfd
    obtain ⟨htw, hdw⟩ := takeWhile_eq_self_of_digits frac hfd
    have h1 : jsMatchGroups (ip ++ '.' :: frac) = jsMatchGroups ('.' :: frac) :=
      jsMatchGroups_skip_prefix ip _ hip
    have h2 : jsMatchGroups ('.' :: frac) = (some frac, none) := by
      rw [jsMatchGroups, matchFrom_dot, htw, hdw, if_neg hne, if_pos rfl]
    simp [decimalPlaces, h1, h2]
  · intro ip frac ed hip hne hfd hedne hed
    refine ⟨?_, ?_, ?_⟩
    · obtain ⟨htw, hdw⟩ := takeWhile_digits_append frac ('e' :: '-' :: ed) hfd
      rw [List.takeWhile_cons_of_neg (by simp [he]), List.append_nil] at htw
      rw [List.dropWhile_cons_of_neg (by simp [he])] at hdw
      have h1 := jsMatchGroups_skip_prefix ip
        ('.' :: (frac ++ 'e' :: '-' :: ed)) hip
      have h2 := jsMatchGroups_dot_exp frac ('e' :: '-' :: ed) _ hne htw hdw
        (by simp) (expEnd_neg ed hedne hed)
      rw [decimalPlaces, h1, h2]
      simp only [Option.getD_some]
      rw [sub_neg_eq_add, max_eq_right (by positivity)]
    · obtain ⟨htw, hdw⟩ := takeWhile_digits_append frac ('e' :: '+' :: ed) hfd
      rw [List.takeWhile_cons_of_neg (by simp [he]), List.append_nil] at htw
      rw [List.dropWhile_cons_of_neg (by simp [he])] at hdw
      have h1 := jsMatchGroups_skip_prefix ip
        ('.' :: (frac ++ 'e' :: '+' :: ed)) hip
      have h2 := jsMatchGroups_dot_exp frac ('e' :: '+' :: ed) _ hne htw hdw
        (by simp) (expEnd_plus ed hedne hed)
      rw [decimalPlaces, h1, h2]
      simp
    · obtain ⟨htw, hdw⟩ := takeWhile_digits_append frac ('e' :: ed) hfd
      rw [List.takeWhile_cons_of_neg (by simp [he]), List.append_nil] at htw
      rw [List.dropWhile_cons_of_neg (by simp [he])] at hdw
      have h1 := jsMatchGroups_skip_prefix ip ('.' :: (frac ++ 'e' :: ed)) hip
      obtain ⟨d, ds, rfl⟩ := List.exists_cons_of_ne_nil hedne
      have hd : d.isDigit := hed d (List.mem_cons_self d _)
      have h2 := jsMatchGroups_dot_exp frac ('e' :: d :: ds) _ hne htw hdw
        (by simp) (expEnd_unsigned d ds hd hed)
      rw [decimalPlaces, h1, h2]
      simp
  · intro ip ed hip hedne hed
    refine ⟨?_, ?_, ?_⟩
    · have h1 := jsMatchGroups_skip_prefix ip ('e' :: '-' :: ed) hip
      have h2 := jsMatchGroups_expHead ('-' :: ed) _ (expEnd_neg ed hedne hed)
      rw [decimalPlaces, h1, h2]
      simp only [Option.getD_some]
      rw [sub_neg_eq_add, zero_add]
      exact max_eq_right (by positivity)
    · have h1 := jsMatchGroups_skip_prefix ip ('e' :: '+' :: ed) hip
      have h2 := jsMatchGroups_expHead ('+' :: ed) _ (expEnd_plus ed hedne hed)
      rw [decimalPlaces, h1, h2]
      simp only [Option.getD_some]
      rw [zero_sub]
      exact max_eq_left (neg_nonpos.mpr (by positivity))
    · obtain ⟨d, ds, rfl⟩ := List.exists_cons_of_ne_nil hedne
      have hd : d.isDigit := hed d (List.mem_cons_self d _)
      have h1 := jsMatchGroups_skip_prefix ip ('e' :: d :: ds) hip
      have h2 := jsMatchGroups_expHead (d :: ds) _ (expEnd_unsigned d ds hd hed)
      rw [decimalPlaces, h1, h2]
      simp only [Option.getD_some]
      rw [zero_sub]
      exact max_eq_left (neg_nonpos.mpr (by positivity))

/-- C9 witness: the general clauses of `decimalPlaces_spec` applied to the
concrete strings `"-42"`, `"-1.25"`, `"1.25e-3"` (with its `e+`/bare
variants) and `"1e-7"` (with its `e+`/bare variants). -/
theorem decimalPlaces_spec_witness :
    decimalPlaces ['-', '4', '2'] = 0 ∧
      decimalPlaces (['-', '1'] ++ '.' :: ['2', '5']) =
        (['2', '5'] : List Char).length ∧
      (decimalPlaces (['1'] ++ '.' :: (['2', '5'] ++ 'e' :: '-' :: ['3'])) =
          ((['2', '5'] : List Char).length : Int) + digitsVal ['3'] ∧
        decimalPlaces (['1'] ++ '.' :: (['2', '5'] ++ 'e' :: '+' :: ['3'])) =
          max 0 (((['2', '5'] : List Char).length : Int) - digitsVal ['3']) ∧
        decimalPlaces (['1'] ++ '.' :: (['2', '5'] ++ 'e' :: ['3'])) =
          max 0 (((['2', '5'] : List Char).length : Int) - digitsVal ['3'])) ∧
      (decimalPlaces (['1'] ++ 'e' :: '-' :: ['7']) = digitsVal ['7'] ∧
        decimalPlaces (['1'] ++ 'e' :: '+' :: ['7']) = 0 ∧
        decimalPlaces (['1'] ++ 'e' :: ['7']) = 0) :=
  ⟨decimalPlaces_spec.1 _ (by decide),
    decimalPlaces_spec.2.1 _ _ (by decide) (by decide) (by decide),
    decimalPlaces_spec.2.2.1 _ _ _ (by decide) (by decide) (by decide)
      (by decide) (by decide),
    decimalPlaces_spec.2.2.2.1 _ _ (by decide) (by decide) (by decide)⟩

/-! ## controls.js: registry and dispatcher (`generateControl`)

Source (latest variant): exports of `controls/index.js` are filtered by the
regex `^generate[A-Z][a-zA-Z0-9]*Control$`; `generatorRegistry` maps the
stripped short name to the factory (`Object.fromEntries` keeps the last entry
on duplicate keys), `ControlTypes` is the frozen short-name enum from the same
filter; `generateControl(controlType, ...args)` checks membership, resolves
the factory, reads its `use` metadata and validates the arguments per call
mode before invoking.  A factory is modelled by its export name (`tag`) and
`use` metadata; a successful dispatch returns which factory was invoked with
which argument list, an error means no factory was invoked. -/

inductive UseMode
  | style
  | control
deriving DecidableEq

structure Generator where
  tag : List Char
  use : Option UseMode
deriving DecidableEq

/-- A positional JavaScript argument as `generateControl` inspects it:
a string, `undefined` (missing), or any non-string value. -/
inductive JSVal
  | str (s : List Char)
  | undefined
  | other
deriving DecidableEq

/-- The registry-layer error taxonomy (one per distinct `throw`). -/
inductive RegErr
  | UnsupportedControlType
  | UnregisteredGenerator
  | MissingCallModeMetadata
  | InvalidArgumentShape
  | UnsupportedUseType
deriving DecidableEq

def genPrefix : List Char := ['g', 'e', 'n', 'e', 'r', 'a', 't', 'e']

def ctrlSuffix : List Char := ['C', 'o', 'n', 't', 'r', 'o', 'l']

/-- The registration regex `^generate[A-Z][a-zA-Z0-9]*Control$`. -/
def matchGenName (l : List Char) : Bool :=
  genPrefix.isPrefixOf l && ctrlSuffix.isSuffixOf l &&
    (match (l.drop 8).reverse.drop 7 |>.reverse with
     | [] => false
     | c :: cs => c.isUpper && cs.all fun d => d.isAlpha || d.isDigit)

def stripPre (p l : List Char) : List Char :=
  if p.isPrefixOf l then l.drop p.length else l

def stripSuf (s l : List Char) : List Char :=
  if s.isSuffixOf l then (l.reverse.drop s.length).reverse else l

/-- `fnName.replace(/^generate/, "").replace(/Control$/, "")`. -/
def shortName (l : List Char) : List Char :=
  stripSuf ctrlSuffix (stripPre genPrefix l)

/-- An exported binding of `controls/index.js`: export name and factory. -/
abbrev Export := List Char × Generator

/-- `generatorRegistry` as an entry list (`Object.fromEntries` keeps the last
entry for a duplicated key, so lookups scan for the last match). -/
def regEntries (exports : List Export) : List (List Char × Generator) :=
  (exports.filter fun e => matchGenName e.1).map fun e => (shortName e.1, e.2)

/-- The key/value strings of the frozen `ControlTypes` enum. -/
def ctKeys (exports : List Export) : List (List Char) :=
  ((exports.map Prod.fst).filter matchGenName).map shortName

/-- `Object.fromEntries` access: the last entry with the given key wins. -/
def lookupLast (l : List (List Char × Generator)) (k : List Char) :
    Option Generator :=
  l.foldl (fun acc e => if e.1 = k then some e.2 else acc) none

/-- Positional argument access; a missing argument is `undefined`. -/
def argGet (args : List JSVal) (i : Nat) : JSVal :=
  (args.get? i).getD .undefined

/-- The first argument is missing, not a string, or the empty string
(the condition both call-mode validators reject on). -/
def firstArgNotNonemptyString (args : List JSVal) : Bool :=
  match argGet args 0 with
  | .str s => s.isEmpty
  | _ => true

/-- `generateControl(controlType, ...args)`.  On success the result records
the invoked factory and the exact argument list passed to it. -/
def generateControl (exports : List Export) (controlType : List Char)
    (args : List JSVal) : Except RegErr (List Char × List JSVal) :=
  if controlType ∈ ctKeys exports then
    match lookupLast (regEntries exports) controlType with
    | none => .error .UnregisteredGenerator
    | some fn =>
      match fn.use with
      | none => .error .MissingCallModeMetadata
      | some .style =>
        match argGet args 0 with
        | .str s =>
          if s = [] then .error .InvalidArgumentShape
          else
            match argGet args 1 with
            | .str p =>
              if p = [] then .error .InvalidArgumentShape
              else .ok (fn.tag, [.str s, .str p])
            | _ => .error .InvalidArgumentShape
        | _ => .error .InvalidArgumentShape
      | some .control =>
        match argGet args 0 with
        | .str s =>
          if s = [] then .error .InvalidArgumentShape
          else .ok (fn.tag, [.str s])
        | _ => .error .InvalidArgumentShape
  else .error .UnsupportedControlType

/-- The current exports of `controls/index.js` (most recent factory
variants): FontSize carries `{use: 'style'}`, RadioTabs `{use: 'control'}`,
the Color and FontFamily factories declare no `use` metadata. -/
def ctrlExports : List Export :=
  [("generateFontSizeControl".toList,
      ⟨"generateFontSizeControl".toList, some .style⟩),
   ("generateColorControl".toList,
      ⟨"generateColorControl".toList, none⟩),
   ("generateFontFamilyControl".toList,
      ⟨"generateFontFamilyControl".toList, none⟩),
   ("generateRadioTabsControl".toList,
      ⟨"generateRadioTabsControl".toList, some .control⟩)]

theorem lookupLast_aux_isSome (t : List Char) :
    ∀ (l : List (List Char × Generator)) (acc : Option Generator),
      (t ∈ l.map Prod.fst ∨ acc.isSome = true) →
      (l.foldl (fun acc e => if e.1 = t then some e.2 else acc) acc).isSome
        = true := by
  intro l
  induction l with
  | nil =>
    intro acc h
    rcases h with h | h
    · simp at h
    · simpa using h
  | cons e es ih =>
    intro acc h
    rw [List.foldl_cons]
    by_cases he : e.1 = t
    · exact ih _ (Or.inr (by simp [he]))
    · apply ih
      rcases h with h | h
      · rw [List.map_cons] at h
        rcases List.mem_cons.mp h with h | h
        · exact absurd h.symm he
        · exact Or.inl h
      · exact Or.inr (by simpa [he] using h)

theorem lookupLast_aux_mem (t : List Char) :
    ∀ (l : List (List Char × Generator)) (acc : Option Generator),
      (l.foldl (fun acc e => if e.1 = t then some e.2 else acc) acc).isSome
        = true →
      t ∈ l.map Prod.fst ∨ acc.isSome = true := by
  intro l
  induction l with
  | nil => intro acc h; exact Or.inr (by simpa using h)
  | cons e es ih =>
    intro acc h
    rw [List.foldl_cons] at h
    rcases ih _ h with h' | h'
    · exact Or.inl (by rw [List.map_cons]; exact List.mem_cons_of_mem _ h')
    · by_cases he : e.1 = t
      · exact Or.inl (by
          rw [List.map_cons, he]; exact List.mem_cons_self t _)
      · exact Or.inr (by simpa [he] using h')

theorem ctKeys_eq_regEntries_keys (exports : List Export) :
    ctKeys exports = (regEntries exports).map Prod.fst := by
  induction exports with
  | nil => rfl
  | cons e es ih =>
    by_cases h : matchGenName e.1 = true
    · simp only [ctKeys, regEntries, List.map_cons, List.filter_cons, h,
        if_true] at *
      simp [ih]
    · simp only [ctKeys, regEntries, List.map_cons, List.filter_cons, h,
        Bool.false_eq_true, if_false] at *
      exact ih

theorem mem_ctKeys_of_lookup (exports : List Export) (t : List Char)
    (fn : Generator) (h : lookupLast (regEntries exports) t = some fn) :
    t ∈ ctKeys exports := by
  rw [ctKeys_eq_regEntries_keys]
  have := lookupLast_aux_mem t (regEntries exports) none (by
    rw [show (regEntries exports).foldl
      (fun acc e => if e.1 = t then some e.2 else acc) none
        = lookupLast (regEntries exports) t from rfl, h]; rfl)
  rcases this with h' | h'
  · exact h'
  · simp at h'

theorem lookup_isSome_of_mem_ctKeys (exports : List Export) (t : List Char)
    (ht : t ∈ ctKeys exports) :
    (lookupLast (regEntries exports) t).isSome = true := by
  unfold lookupLast
  exact lookupLast_aux_isSome t _ none
    (Or.inl (by rw [← ctKeys_eq_regEntries_keys]; exact ht))

/-- C2: `generateControl` rejects an unrecognized `controlType` with
`UnsupportedControlType`, and rejects a Style-mode dispatch whose first
argument is missing, not a string, or empty with `InvalidArgumentShape`;
in both cases the result is an error, so no factory is invoked (a successful
result records the invoked factory). -/
theorem generateControl_validation :
    (∀ (exports : List Export) (ct : List Char) (args : List JSVal),
      ct ∉ ctKeys exports →
      generateControl exports ct args = .error .UnsupportedControlType) ∧
    (∀ (exports : List Export) (ct : List Char) (args : List JSVal)
        (fn : Generator),
      lookupLast (regEntries exports) ct = some fn →
      fn.use = some .style →
      firstArgNotNonemptyString args = true →
      generateControl exports ct args = .error .InvalidArgumentShape) := by
  constructor
  · intro exports ct args h
    rw [generateControl, if_neg h]
  · intro exports ct args fn hfn hstyle hbad
    rw [generateControl, if_pos (mem_ctKeys_of_lookup exports ct fn hfn)]
    unfold firstArgNotNonemptyString at hbad
    simp only [hfn, hstyle]
    rcases ha : argGet args 0 with s | _ | _ <;> simp only [ha] at hbad ⊢
    · have hs : s = [] := by simpa using hbad
      simp [hs]

/-- C2 witness: `generate("NoSuchType", "body", "font-size")` fails with
`UnsupportedControlType`; `generate("FontSize")` (no selector argument)
resolves the Style-mode FontSize factory and fails with
`InvalidArgumentShape`. -/
theorem generateControl_validation_witness :
    ("NoSuchType".toList ∉ ctKeys ctrlExports ∧
      generateControl ctrlExports "NoSuchType".toList
          [.str "body".toList, .str "font-size".toList] =
        .error .UnsupportedControlType) ∧
    (lookupLast (regEntries ctrlExports) "FontSize".toList =
        some ⟨"generateFontSizeControl".toList, some .style⟩ ∧
      generateControl ctrlExports "FontSize".toList [] =
        .error .InvalidArgumentShape) :=
  ⟨⟨by decide, generateControl_validation.1 _ _ _ (by decide)⟩,
    ⟨by decide,
      generateControl_validation.2 _ _ _
        ⟨"generateFontSizeControl".toList, some .style⟩
        (by decide) (by decide) (by decide)⟩⟩

instance : DecidableEq (Except RegErr (List Char × List JSVal)) := fun a b =>
  match a, b with
  | .ok x, .ok y =>
    if h : x = y then isTrue (by rw [h])
    else isFalse fun hh => h (Except.ok.inj hh)
  | .error x, .error y =>
    if h : x = y then isTrue (by rw [h])
    else isFalse fun hh => h (Except.error.inj hh)
  | .ok _, .error _ => isFalse Except.noConfusion
  | .error _, .ok _ => isFalse Except.noConfusion

/-- C7 (counterexample): a `control`-mode (SimpleId) dispatch with TWO
arguments, the first a non-empty string, does NOT fail with
`InvalidArgumentShape` as the claim requires ("exactly one non-empty
string"): the validator only inspects `args[0]` and the extra argument is
silently dropped. -/
theorem generateControl_simpleId_extra_arg :
    generateControl ctrlExports "RadioTabs".toList
        [.str ['a'], .str ['b']] =
      .ok ("generateRadioTabsControl".toList, [.str ['a']]) ∧
    generateControl ctrlExports "RadioTabs".toList
        [.str ['a'], .str ['b']] ≠
      .error .InvalidArgumentShape := by
  constructor <;> decide

/-- C7 (amended): a `control`-mode (SimpleId) dispatch fails with
`InvalidArgumentShape` unless the FIRST argument is a non-empty string;
when it is, the factory is invoked with exactly that string as its single
argument (any extra arguments are ignored). -/
theorem generateControl_simpleId :
    (∀ (exports : List Export) (ct : List Char) (args : List JSVal)
        (fn : Generator),
      lookupLast (regEntries exports) ct = some fn →
      fn.use = some .control →
      firstArgNotNonemptyString args = true →
      generateControl exports ct args = .error .InvalidArgumentShape) ∧
    (∀ (exports : List Export) (ct : List Char) (args : List JSVal)
        (fn : Generator) (s : List Char),
      lookupLast (regEntries exports) ct = some fn →
      fn.use = some .control →
      argGet args 0 = .str s → s ≠ [] →
      generateControl exports ct args = .ok (fn.tag, [.str s])) := by
  constructor
  · intro exports ct args fn hfn hctl hbad
    rw [generateControl, if_pos (mem_ctKeys_of_lookup exports ct fn hfn)]
    unfold firstArgNotNonemptyString at hbad
    simp only [hfn, hctl]
    rcases ha : argGet args 0 with s | _ | _ <;> simp only [ha] at hbad ⊢
    · have hs : s = [] := by simpa using hbad
      simp [hs]
  · intro exports ct args fn s hfn hctl ha hs
    rw [generateControl, if_pos (mem_ctKeys_of_lookup exports ct fn hfn)]
    simp only [hfn, hctl, ha]
    rw [if_neg hs]

/-- C7 witness: the amended behaviour at the RadioTabs factory: no argument
fails with `InvalidArgumentShape`; the single argument `"tabs"` invokes the
factory with exactly that string. -/
theorem generateControl_simpleId_witness :
    (lookupLast (regEntries ctrlExports) "RadioTabs".toList =
        some ⟨"generateRadioTabsControl".toList, some .control⟩ ∧
      generateControl ctrlExports "RadioTabs".toList [] =
        .error .InvalidArgumentShape) ∧
    (argGet [.str "tabs".toList] 0 = .str "tabs".toList ∧
      generateControl ctrlExports "RadioTabs".toList [.str "tabs".toList] =
        .ok ("generateRadioTabsControl".toList, [.str "tabs".toList])) :=
  ⟨⟨by decide,
      generateControl_simpleId.1 _ _ _
        ⟨"generateRadioTabsControl".toList, some .control⟩
        (by decide) (by decide) (by decide)⟩,
    ⟨by decide,
      generateControl_simpleId.2 _ _ _
        ⟨"generateRadioTabsControl".toList, some .control⟩ _
        (by decide) (by decide) (by decide) (by decide)⟩⟩

/-- C8: the `ControlTypes` key set equals the `generatorRegistry` key set
(both are derived from the exports matching `generate<Name>Control`), every
`controlType` passing the membership check resolves to a registered factory,
and so the `UnregisteredGenerator` branch of `generateControl` is
unreachable, for every export list. -/
theorem registry_no_unregistered :
    (∀ exports : List Export,
      ctKeys exports = (regEntries exports).map Prod.fst) ∧
    (∀ (exports : List Export) (t : List Char), t ∈ ctKeys exports →
      (lookupLast (regEntries exports) t).isSome = true) ∧
    (∀ (exports : List Export) (t : List Char) (args : List JSVal),
      generateControl exports t args ≠ .error .UnregisteredGenerator) := by
  refine ⟨ctKeys_eq_regEntries_keys, lookup_isSome_of_mem_ctKeys, ?_⟩
  intro exports t args h
  by_cases hmem : t ∈ ctKeys exports
  · obtain ⟨fn, hfn⟩ := Option.isSome_iff_exists.mp
      (lookup_isSome_of_mem_ctKeys exports t hmem)
    rw [generateControl, if_pos hmem] at h
    simp only [hfn] at h
    rcases hu : fn.use with _ | u
    · simp only [hu] at h
      exact RegErr.noConfusion (Except.error.inj h)
    · rcases u with _ | _ <;> simp only [hu] at h <;>
        rcases ha : argGet args 0 with s | _ | _ <;> simp only [ha] at h <;>
        try exact RegErr.noConfusion (Except.error.inj h)
      · by_cases hs : s = []
        · rw [if_pos hs] at h
          exact RegErr.noConfusion (Except.error.inj h)
        · rw [if_neg hs] at h
          rcases hb : argGet args 1 with p | _ | _ <;> simp only [hb] at h <;>
            try exact RegErr.noConfusion (Except.error.inj h)
          by_cases hp : p = []
          · rw [if_pos hp] at h
            exact RegErr.noConfusion (Except.error.inj h)
          · rw [if_neg hp] at h
            exact Except.noConfusion h
      · by_cases hs : s = []
        · rw [if_pos hs] at h
          exact RegErr.noConfusion (Except.error.inj h)
        · rw [if_neg hs] at h
          exact Except.noConfusion h
  · rw [generateControl, if_neg hmem] at h
    exact RegErr.noConfusion (Except.error.inj h)

/-- C8 witness: the registered-factory guarantee at the concrete exports and
`controlType = "FontSize"`. -/
theorem registry_no_unregistered_witness :
    "FontSize".toList ∈ ctKeys ctrlExports ∧
      (lookupLast (regEntries ctrlExports) "FontSize".toList).isSome = true :=
  ⟨by decide, registry_no_unregistered.2.1 _ _ (by decide)⟩

/-! ## FontSize control (latest variant, `data-control: 'FontSize'`)

Internal backing fields `_min`/`_max`/`_value` are stored in the base unit
(`defaultUnitType = 'px'`, `defaultUnitSize = 16`); the current display unit
is the `unitSpan` text (initially `"pt"`, switched by the `units` setter which
accepts only `'px'`/`'em'`).  Defaults `_defaultUnits`/`_defaultMin`/
`_defaultMax`/`_defaultValue` back `setDefaults`/`reset`.
`roundTo(value, p) = Math.round(value * 10^p) / 10^p` from `utilities.js`,
with `Math.round(x) = ⌊x + 1/2⌋`. -/

/-- `roundTo` from `utilities.js` (`Math.round(x)` rounds half toward `+∞`). -/
def roundTo (v : ℚ) (p : ℕ) : ℚ :=
  ((⌊v * 10 ^ p + 1 / 2⌋ : ℤ) : ℚ) / 10 ^ p

def pxUnit : List Char := ['p', 'x']

def emUnit : List Char := ['e', 'm']

def ptText : List Char := ['p', 't']

/-- `minimumMin = roundTo(0 * defaultUnitSize, 0)`. -/
def minimumMin : ℚ := roundTo (0 * 16) 0

/-- `maximumMax = roundTo(7 * defaultUnitSize, 0)`. -/
def maximumMax : ℚ := roundTo (7 * 16) 0

structure FSState where
  units : List Char
  min : ℚ
  max : ℚ
  value : ℚ
  dUnits : List Char
  dMin : ℚ
  dMax : ℚ
  dValue : ℚ
deriving DecidableEq

/-- A JavaScript number input after `parseFloat`: finite, or not
(`NaN`/`±Infinity`, which `Number.isFinite` rejects). -/
inductive JSNum
  | fin (q : ℚ)
  | nonFinite
deriving DecidableEq

/-- The `units` setter: accepts only `'em'` or `'px'`, otherwise warns and
leaves the unit unchanged. -/
def setUnits (st : FSState) (u : List Char) : FSState :=
  if u = emUnit ∨ u = pxUnit then { st with units := u } else st

/-- The `min` setter: convert to pt, clamp below by `minimumMin`, drag
`_value` up. -/
def setMin (st : FSState) (val : ℚ) : FSState :=
  let m0 := if st.units = pxUnit then roundTo val 0 else roundTo val 1 * 16
  let m1 := max m0 minimumMin
  { st with min := m1, value := max m1 st.value }

/-- The `max` setter: convert to pt, clamp above by `maximumMax`, drag
`_value` down. -/
def setMax (st : FSState) (val : ℚ) : FSState :=
  let m0 := if st.units = pxUnit then roundTo val 0 else roundTo val 1 * 16
  let m1 := min m0 maximumMax
  { st with max := m1, value := min m1 st.value }

/-- The `value` setter: ignore non-finite input, else convert to pt and clamp
into `[_min, _max]`. -/
def setValue (st : FSState) (v : JSNum) : FSState :=
  match v with
  | .nonFinite => st
  | .fin q =>
    let norm := if st.units = pxUnit then roundTo q 0 else roundTo q 1 * 16
    { st with value := max (min norm st.max) st.min }

def getValue (st : FSState) : ℚ :=
  if st.units = pxUnit then roundTo st.value 0 else roundTo (st.value / 16) 1

def getMin (st : FSState) : ℚ :=
  if st.units = pxUnit then roundTo st.min 0 else roundTo (st.min / 16) 1

def getMax (st : FSState) : ℚ :=
  if st.units = pxUnit then roundTo st.max 0 else roundTo (st.max / 16) 1

/-- `div.reset()`: `Object.assign(div, {units, min, max, value})` runs the
four setters in insertion order on the stored defaults. -/
def fsReset (st : FSState) : FSState :=
  setValue (setMax (setMin (setUnits st st.dUnits) st.dMin) st.dMax)
    (.fin st.dValue)

/-- The `setDefaults` configuration object; `none` models a missing /
`undefined` field. -/
structure FSConfig where
  units : Option (List Char)
  min : Option JSNum
  max : Option JSNum
  value : Option JSNum
deriving DecidableEq

/-- One constructor per distinct `throw` of FontSize `setDefaults`. -/
inductive FSErr
  | MissingParams
  | InvalidUnits
  | NotANumber
  | BelowAbsoluteMin
  | AboveAbsoluteMax
  | InvalidOrdering
  | ValueOutOfRange
deriving DecidableEq

/-- FontSize `setDefaults(config, withReset)`: the checks run in source
order, each `throw` aborts before any default is stored; the result pairs
the post-call state with the error (if any). -/
def setDefaults (st : FSState) (cfg : FSConfig) (withReset : Bool) :
    FSState × Option FSErr :=
  if cfg.units = none ∨ cfg.min = none ∨ cfg.max = none ∨ cfg.value = none
  then (st, some .MissingParams)
  else
    let units := cfg.units.getD []
    if units ≠ pxUnit ∧ units ≠ emUnit then (st, some .InvalidUnits)
    else
      match cfg.min.getD .nonFinite with
      | .nonFinite => (st, some .NotANumber)
      | .fin nMin =>
        match cfg.max.getD .nonFinite with
        | .nonFinite => (st, some .NotANumber)
        | .fin nMax =>
          match cfg.value.getD .nonFinite with
          | .nonFinite => (st, some .NotANumber)
          | .fin nValue =>
            let minPt := if units = pxUnit then nMin else nMin * 16
            let maxPt := if units = pxUnit then nMax else nMax * 16
            let valuePt := if units = pxUnit then nValue else nValue * 16
            if minPt < minimumMin then (st, some .BelowAbsoluteMin)
            else if maxPt > maximumMax then (st, some .AboveAbsoluteMax)
            else if minPt > maxPt then (st, some .InvalidOrdering)
            else if valuePt < minPt ∨ valuePt > maxPt then
              (st, some .ValueOutOfRange)
            else
              let st' := { st with
                dUnits := units,
                dMin := if units = pxUnit then roundTo nMin 0
                  else roundTo nMin 1,
                dMax := if units = pxUnit then roundTo nMax 0
                  else roundTo nMax 1,
                dValue := if units = pxUnit then roundTo nValue 0
                  else roundTo nValue 1 }
              (if withReset then fsReset st' else st', none)

/-- The state of the backing fields at the top of the factory body. -/
def fsInitial : FSState := ⟨ptText, 0, 0, 0, pxUnit, 0, 0, 0⟩

/-- The state of a freshly constructed control: the factory ends with
`div.setDefaults({units:'px', min: 0, max: 7 * 16, value: 16}, true)`. -/
def fsStart : FSState :=
  (setDefaults fsInitial
    ⟨some pxUnit, some (.fin 0), some (.fin 112), some (.fin 16)⟩ true).1

theorem fsStart_eq : fsStart = ⟨pxUnit, 0, 112, 16, pxUnit, 0, 112, 16⟩ := by
  unfold fsStart setDefaults fsInitial
  norm_num [minimumMin, maximumMax, roundTo, ptText, pxUnit, emUnit]
  unfold fsReset setUnits setMin setMax setValue
  norm_num [minimumMin, maximumMax, roundTo, ptText, pxUnit, emUnit]
  simp

theorem roundTo_mono (p : ℕ) {a b : ℚ} (h : a ≤ b) :
    roundTo a p ≤ roundTo b p := by
  unfold roundTo
  have h10 : (0 : ℚ) < 10 ^ p := by positivity
  have hf : (⌊a * 10 ^ p + 1 / 2⌋ : ℤ) ≤ ⌊b * 10 ^ p + 1 / 2⌋ :=
    Int.floor_mono (add_le_add_right (mul_le_mul_of_nonneg_right h h10.le) _)
  exact (div_le_div_iff_of_pos_right h10).mpr (by exact_mod_cast hf)

/-- C3 (counterexample): the claim promises `ValueOutOfRange` for EVERY
configuration whose value (in the base unit) lies outside `[min, max]`, but
earlier checks shadow it: `{units:'px', min:-5, max:10, value:20}` has
`20 ∉ [-5, 10]` yet fails with the absolute-minimum error, not
`ValueOutOfRange`. -/
theorem setDefaults_valueOutOfRange_shadowed :
    ((20 : ℚ) < -5 ∨ (20 : ℚ) > 10) ∧
      (setDefaults fsStart
        ⟨some pxUnit, some (.fin (-5)), some (.fin 10), some (.fin 20)⟩
        false).2 = some .BelowAbsoluteMin ∧
      (setDefaults fsStart
        ⟨some pxUnit, some (.fin (-5)), some (.fin 10), some (.fin 20)⟩
        false).2 ≠ some .ValueOutOfRange := by
  refine ⟨by norm_num, ?_, ?_⟩ <;>
    (norm_num [setDefaults, minimumMin, roundTo, pxUnit, emUnit]; simp)

/-- C3 (amended): for every FontSize control and every configuration that
passes the earlier validations (all four fields present, units `'px'`/`'em'`,
finite numbers, `min`/`max` within the absolute pt bounds, `min ≤ max`)
whose value converted to the base unit lies outside `[min, max]`,
`setDefaults` raises `ValueOutOfRange`; and on this and every other
validation failure the stored default record (and the whole control state)
is exactly what it was before the call, so a subsequent `reset()` reproduces
the prior default state, not the rejected one. -/
theorem setDefaults_valueOutOfRange_atomic :
    (∀ (st : FSState) (u : List Char) (qmin qmax qval : ℚ) (w : Bool),
      (u = pxUnit ∨ u = emUnit) →
      minimumMin ≤ (if u = pxUnit then qmin else qmin * 16) →
      (if u = pxUnit then qmax else qmax * 16) ≤ maximumMax →
      (if u = pxUnit then qmin else qmin * 16) ≤
        (if u = pxUnit then qmax else qmax * 16) →
      ((if u = pxUnit then qval else qval * 16) <
          (if u = pxUnit then qmin else qmin * 16) ∨
        (if u = pxUnit then qval else qval * 16) >
          (if u = pxUnit then qmax else qmax * 16)) →
      (setDefaults st
        ⟨some u, some (.fin qmin), some (.fin qmax), some (.fin qval)⟩
        w).2 = some .ValueOutOfRange) ∧
    (∀ (st : FSState) (cfg : FSConfig) (w : Bool) (e : FSErr),
      (setDefaults st cfg w).2 = some e →
      (setDefaults st cfg w).1 = st ∧
        fsReset (setDefaults st cfg w).1 = fsReset st) := by
  constructor
  · intro st u qmin qmax qval w hu h1 h2 h3 h4
    rw [setDefaults]
    rw [if_neg (by simp)]
    simp only [Option.getD_some]
    rw [if_neg (fun hc => hu.elim (fun h => hc.1 h) fun h => hc.2 h)]
    rw [if_neg (not_lt.mpr h1), if_neg (not_lt.mpr h2),
      if_neg (not_lt.mpr h3), if_pos h4]
  · intro st cfg w e h
    have h1 : (setDefaults st cfg w).1 = st := by
      rcases cfg with ⟨ou, om, oM, ov⟩
      rcases ou with _ | u; · simp [setDefaults]
      rcases om with _ | m; · simp [setDefaults]
      rcases oM with _ | M; · simp [setDefaults]
      rcases ov with _ | v; · simp [setDefaults]
      rw [setDefaults] at h ⊢
      rw [if_neg (by simp)] at h ⊢
      simp only [Option.getD_some] at h ⊢
      by_cases hu : u ≠ pxUnit ∧ u ≠ emUnit
      · rw [if_pos hu]
      rw [if_neg hu] at h ⊢
      rcases m with q1 | _
      rcases M with q2 | _
      rcases v with q3 | _
      all_goals try rfl
      dsimp only at h ⊢
      split_ifs at h ⊢ <;> rfl
    exact ⟨h1, by rw [h1]⟩

/-- C3 witness: the amended behaviour at the spec's example shape
`{units:'px', min: 0, max: 10, value: 20}` (ValueOutOfRange) and the
no-partial-application guarantee at that same failing call. -/
theorem setDefaults_valueOutOfRange_witness :
    ((setDefaults fsStart
        ⟨some pxUnit, some (.fin 0), some (.fin 10), some (.fin 20)⟩
        false).2 = some .ValueOutOfRange) ∧
      ((setDefaults fsStart
          ⟨some pxUnit, some (.fin 0), some (.fin 10), some (.fin 20)⟩
          false).1 = fsStart ∧
        fsReset (setDefaults fsStart
          ⟨some pxUnit, some (.fin 0), some (.fin 10), some (.fin 20)⟩
          false).1 = fsReset fsStart) :=
  ⟨setDefaults_valueOutOfRange_atomic.1 fsStart pxUnit 0 10 20 false
      (Or.inl rfl) (by norm_num [minimumMin, roundTo])
      (by norm_num [maximumMax, roundTo]) (by norm_num) (by norm_num),
    setDefaults_valueOutOfRange_atomic.2 fsStart
      ⟨some pxUnit, some (.fin 0), some (.fin 10), some (.fin 20)⟩ false
      .ValueOutOfRange
      (setDefaults_valueOutOfRange_atomic.1 fsStart pxUnit 0 10 20 false
        (Or.inl rfl) (by norm_num [minimumMin, roundTo])
        (by norm_num [maximumMax, roundTo]) (by norm_num) (by norm_num))⟩

/-- C4: after assigning any finite number to the FontSize `value` property,
the read-back value lies in `[min, max]` (all three read through the getters
in the current display unit; the bounds must be a real interval,
`_min ≤ _max`); in particular assigning 999 on a freshly constructed control
(default bounds) reads back as the control's configured `max`, 112. -/
theorem fontSize_value_clamped :
    (∀ (st : FSState) (q : ℚ), st.min ≤ st.max →
      getMin (setValue st (.fin q)) ≤ getValue (setValue st (.fin q)) ∧
        getValue (setValue st (.fin q)) ≤ getMax (setValue st (.fin q))) ∧
    (getValue (setValue fsStart (.fin 999)) = getMax fsStart ∧
      getMax fsStart = 112) := by
  constructor
  · intro st q h
    have h1 : st.min ≤
        max (min (if st.units = pxUnit then roundTo q 0
          else roundTo q 1 * 16) st.max) st.min :=
      le_max_right _ _
    have h2 : max (min (if st.units = pxUnit then roundTo q 0
        else roundTo q 1 * 16) st.max) st.min ≤ st.max :=
      max_le (min_le_right _ _) h
    unfold setValue getMin getValue getMax
    dsimp only
    by_cases hu : st.units = pxUnit
    · simp only [if_pos hu] at h1 h2 ⊢
      exact ⟨roundTo_mono 0 h1, roundTo_mono 0 h2⟩
    · simp only [if_neg hu] at h1 h2 ⊢
      constructor
      · exact roundTo_mono 1 (by linarith)
      · exact roundTo_mono 1 (by linarith)
  · constructor
    · rw [fsStart_eq]
      norm_num [setValue, getValue, getMax, roundTo, pxUnit]
    · rw [fsStart_eq]
      norm_num [getMax, roundTo, pxUnit]

/-- C4 witness: the clamping guarantee applied to the freshly constructed
control (`min = 0 ≤ max = 112`) at the assignment `value = 5`. -/
theorem fontSize_value_clamped_witness :
    getMin (setValue fsStart (.fin 5)) ≤ getValue (setValue fsStart (.fin 5)) ∧
      getValue (setValue fsStart (.fin 5)) ≤ getMax (setValue fsStart (.fin 5)) :=
  fontSize_value_clamped.1 fsStart 5 (by rw [fsStart_eq]; norm_num)

/-! ## FontSize unit conversion (`pxToEm` / `emToPx`)

Source (`FontSize.js`, `defaultPxSize = 16`):
`pxToEm(px) = roundTo(px / 16, 1)`, `emToPx(em) = roundTo(em * 16, 0)`;
the same composition appears in the `value` setter/getter of the latest
variant (`emToPt(roundTo(v, 1))` on write, `roundTo(ptToEm(v), 1)` on
read). -/

def pxToEm (pxSize : ℚ) : ℚ := roundTo (pxSize / 16) 1

def emToPx (emSize : ℚ) : ℚ := roundTo (emSize * 16) 0

/-- C6: for every base-unit-representable value (an integer number of px),
converting to em (divide by 16, round to one decimal) and back
(multiply by 16, round to an integer) lands within one rounding unit of the
original; exact round-trip equality fails, e.g. at 7px, which comes back
as 6px. -/
theorem pxToEm_emToPx_roundtrip :
    (∀ v : ℤ, |emToPx (pxToEm (v : ℚ)) - (v : ℚ)| ≤ 1) ∧
      emToPx (pxToEm (7 : ℚ)) = 6 := by
  constructor
  · intro v
    unfold pxToEm emToPx roundTo
    set k : ℤ := ⌊(v : ℚ) / 16 * 10 ^ 1 + 1 / 2⌋ with hk
    have hk1 : (k : ℚ) ≤ (v : ℚ) / 16 * 10 ^ 1 + 1 / 2 := Int.floor_le _
    have hk2 : (v : ℚ) / 16 * 10 ^ 1 + 1 / 2 < k + 1 := Int.lt_floor_add_one _
    set r : ℤ := ⌊(k : ℚ) / 10 ^ 1 * 16 * 10 ^ 0 + 1 / 2⌋ with hr
    have hr1 : (r : ℚ) ≤ (k : ℚ) / 10 ^ 1 * 16 * 10 ^ 0 + 1 / 2 :=
      Int.floor_le _
    have hr2 : (k : ℚ) / 10 ^ 1 * 16 * 10 ^ 0 + 1 / 2 < r + 1 :=
      Int.lt_floor_add_one _
    rw [abs_le]
    have hub : (r : ℚ) < (v : ℚ) + 2 := by
      norm_num at hk1 hk2 hr1 hr2 ⊢
      nlinarith
    have hlb : (v : ℚ) < (r : ℚ) + 2 := by
      norm_num at hk1 hk2 hr1 hr2 ⊢
      nlinarith
    have hub' : r ≤ v + 1 := by
      have h' : r < v + 2 := by exact_mod_cast hub
      omega
    have hlb' : v ≤ r + 1 := by
      have h' : v < r + 2 := by exact_mod_cast hlb
      omega
    have h1 : (r : ℚ) ≤ (v : ℚ) + 1 := by exact_mod_cast hub'
    have h2 : (v : ℚ) ≤ (r : ℚ) + 1 := by exact_mod_cast hlb'
    norm_num
    constructor <;> linarith
  · norm_num [pxToEm, emToPx, roundTo]

/-! ## Color control (latest variant, with `_defaultColor` and `setDefaults`)

`div.value` reads/writes `colorSel.value`; `div.reset()` sets
`div.value = _defaultColor`.  `setDefaults({value}, withReset)` first checks
`typeof value !== "string" || !value.trim()` (one error), then probes the
browser's CSS parser with a throwaway style assignment
(`s.color = value; s.color === ""` — external DOM behaviour, abstracted as a
`probe` oracle) and fails with the invalid-color error when the assignment
had no effect; on success it stores the raw string. -/

/-- `String.prototype.trim()`. -/
def jsTrim (l : List Char) : List Char :=
  ((l.dropWhile Char.isWhitespace).reverse.dropWhile Char.isWhitespace).reverse

structure ColorState where
  dColor : List Char
  live : List Char
deriving DecidableEq

/-- The two distinct `throw`s of Color `setDefaults`. -/
inductive ColorErr
  | InvalidValue
  | InvalidColor
deriving DecidableEq

/-- `div.reset()`: `div.value = _defaultColor`. -/
def colorReset (st : ColorState) : ColorState :=
  { st with live := st.dColor }

/-- Color `setDefaults({value}, withReset)`, parameterized by the browser's
CSS-color parse probe. -/
def colorSetDefaults (probe : List Char → Bool) (st : ColorState)
    (value : JSVal) (withReset : Bool) : ColorState × Option ColorErr :=
  match value with
  | .str s =>
    if jsTrim s = [] then (st, some .InvalidValue)
    else if probe s = false then (st, some .InvalidColor)
    else
      let st' := { st with dColor := s }
      (if withReset then colorReset st' else st', none)
  | _ => (st, some .InvalidValue)

/-- The state of a freshly constructed Color control
(`_defaultColor = '#000000'`, `colorSel.value = '#000000'`). -/
def colorInitial : ColorState :=
  ⟨"#000000".toList, "#000000".toList⟩

/-- C5 (counterexample): for `s = ""` — a string that is not parseable as a
CSS color (the probe reports the throwaway assignment had no effect) —
`setDefaults({value: s})` fails with the non-empty-string error, not
`InvalidColor`: the emptiness check precedes the parse probe. -/
theorem colorSetDefaults_empty_failure :
    (fun _ : List Char => false) [] = false ∧
      (colorSetDefaults (fun _ => false) colorInitial (.str []) false).2 =
        some .InvalidValue ∧
      (colorSetDefaults (fun _ => false) colorInitial (.str []) false).2 ≠
        some .InvalidColor := by
  refine ⟨rfl, rfl, ?_⟩
  simp [colorSetDefaults, jsTrim]

/-- C5 (amended): `setDefaults({value: s})` fails with `InvalidColor` when
`s` is a string with non-whitespace content that the CSS parse probe
rejects, leaving the whole state (in particular the stored default)
unchanged; empty/blank/non-string values fail earlier with a distinct
invalid-value error, also leaving the state unchanged; and when the probe
accepts `s` (as a browser does for `"#336699"`), `setDefaults` stores the
raw string and a subsequent `reset()` makes the control's `value` exactly
that string. -/
theorem colorSetDefaults_spec :
    (∀ (probe : List Char → Bool) (st : ColorState) (s : List Char)
        (w : Bool),
      jsTrim s ≠ [] → probe s = false →
      colorSetDefaults probe st (.str s) w = (st, some .InvalidColor)) ∧
    (∀ (probe : List Char → Bool) (st : ColorState) (v : JSVal) (w : Bool)
        (e : ColorErr),
      (colorSetDefaults probe st v w).2 = some e →
      (colorSetDefaults probe st v w).1 = st) ∧
    (∀ (probe : List Char → Bool) (st : ColorState) (s : List Char)
        (w : Bool),
      jsTrim s ≠ [] → probe s = true →
      (colorSetDefaults probe st (.str s) w).2 = none ∧
        ((colorSetDefaults probe st (.str s) w).1).dColor = s ∧
        (colorReset (colorSetDefaults probe st (.str s) w).1).live = s) := by
  refine ⟨?_, ?_, ?_⟩
  · intro probe st s w h1 h2
    rw [colorSetDefaults, if_neg h1, if_pos h2]
  · intro probe st v w e h
    rcases v with s | _ | _
    · simp only [colorSetDefaults] at h ⊢
      split_ifs at h ⊢ <;> rfl
    · rfl
    · rfl
  · intro probe st s w h1 h2
    rw [colorSetDefaults, if_neg h1, if_neg (by rw [h2]; simp)]
    rcases w with _ | _ <;> simp [colorReset]

/-- C5 witness: the amended behaviour at `s = "zzz"` with a probe rejecting
it (`InvalidColor`, state unchanged) and at `s = "#336699"` with a probe
accepting it (stored raw, `reset()` restores exactly `"#336699"`). -/
theorem colorSetDefaults_spec_witness :
    (colorSetDefaults (fun _ => false) colorInitial
        (.str "zzz".toList) false = (colorInitial, some .InvalidColor)) ∧
      ((colorSetDefaults (fun _ => false) colorInitial
          (.str "zzz".toList) false).1 = colorInitial) ∧
      ((colorSetDefaults (fun _ => true) colorInitial
          (.str "#336699".toList) false).2 = none ∧
        ((colorSetDefaults (fun _ => true) colorInitial
            (.str "#336699".toList) false).1).dColor = "#336699".toList ∧
        (colorReset (colorSetDefaults (fun _ => true) colorInitial
            (.str "#336699".toList) false).1).live = "#336699".toList) :=
  ⟨colorSetDefaults_spec.1 _ _ _ _ (by decide) rfl,
    colorSetDefaults_spec.2.1 _ _ _ _ .InvalidColor
      (by rw [colorSetDefaults_spec.1 _ _ _ _ (by decide) rfl]),
    colorSetDefaults_spec.2.2 _ _ _ _ (by decide) rfl⟩

/-! ## RadioTabs control: the tab-label list

`_tabs` is the internal array of tab label strings.  `validateText` rejects
non-strings, blank strings and strings containing angle brackets;
`appendTab`/`prependTab` reject duplicates and insert after/before an
existing tab when the second argument is truthy (non-null, non-empty) and
present, else at the end/beginning; `deleteTab` splices out the first
occurrence, if any. -/

/-- `validateText(text)` from `RadioTabs.js`. -/
def validateText : JSVal → Bool
  | .str s =>
    if jsTrim s = [] then false
    else if s.contains '<' || s.contains '>' then false
    else true
  | _ => false

/-- The `afterTab && _tabs.includes(afterTab)` guard (`null` and the empty
string are falsy). -/
def tabAnchorOk (tabs : List (List Char)) : Option (List Char) → Bool
  | none => false
  | some a => !a.isEmpty && tabs.contains a

/-- `_tabs.splice(i, 0, s)`. -/
def spliceIn (tabs : List (List Char)) (i : Nat) (s : List Char) :
    List (List Char) :=
  tabs.take i ++ s :: tabs.drop i

/-- `appendTab(tabText, afterTab = null)`: returns the flag the method
returns together with the new `_tabs`. -/
def appendTab (tabs : List (List Char)) (tabText : JSVal)
    (afterTab : Option (List Char)) : Bool × List (List Char) :=
  if validateText tabText = false then (false, tabs)
  else
    let s := match tabText with | .str s => s | _ => []
    if tabs.contains s then (false, tabs)
    else if tabAnchorOk tabs afterTab then
      (true, spliceIn tabs (tabs.indexOf (afterTab.getD []) + 1) s)
    else (true, tabs ++ [s])

/-- `prependTab(tabText, beforeTab = null)`. -/
def prependTab (tabs : List (List Char)) (tabText : JSVal)
    (beforeTab : Option (List Char)) : Bool × List (List Char) :=
  if validateText tabText = false then (false, tabs)
  else
    let s := match tabText with | .str s => s | _ => []
    if tabs.contains s then (false, tabs)
    else if tabAnchorOk tabs beforeTab then
      (true, spliceIn tabs (tabs.indexOf (beforeTab.getD [])) s)
    else (true, s :: tabs)

/-- `deleteTab(tabText)`: splice out the first occurrence when present. -/
def deleteTab (tabs : List (List Char)) (t : List Char) : List (List Char) :=
  if tabs.contains t then
    tabs.take (tabs.indexOf t) ++ tabs.drop (tabs.indexOf t + 1)
  else tabs

theorem spliceIn_perm (tabs : List (List Char)) (i : Nat) (s : List Char) :
    (spliceIn tabs i s).Perm (s :: tabs) := by
  unfold spliceIn
  have h : (tabs.take i ++ s :: tabs.drop i).Perm
      (s :: (tabs.take i ++ tabs.drop i)) := List.perm_middle
  rwa [List.take_append_drop] at h

theorem deleteTab_eq_erase (tabs : List (List Char)) (t : List Char) :
    deleteTab tabs t = tabs.erase t := by
  induction tabs with
  | nil => rfl
  | cons a l ih =>
    by_cases ha : a = t
    · subst ha
      unfold deleteTab
      rw [if_pos (by simp)]
      simp [List.indexOf_cons]
    · have h1 : (t == a) = false := by simp [Ne.symm ha]
      have h2 : (a == t) = false := by simp [ha]
      rw [List.erase_cons, if_neg (by simp [h2])]
      unfold deleteTab at ih ⊢
      rw [List.indexOf_cons, h2]
      simp only [List.contains_cons, h1, Bool.false_or, cond_false]
      by_cases hc : l.contains t
      · rw [if_pos hc] at ih
        rw [if_pos hc]
        simp only [List.take_succ_cons, List.drop_succ_cons,
          List.cons_append]
        rw [ih]
      · rw [if_neg hc] at ih
        rw [if_neg hc, ← ih]

theorem perm_count_eq {l₁ l₂ : List (List Char)} (h : l₁.Perm l₂)
    (s : List Char) : l₁.count s = l₂.count s := by
  unfold List.count
  exact h.countP_eq _

theorem inserted_once {tabs res : List (List Char)} {s : List Char}
    (hp : res.Perm (s :: tabs)) (hmem : s ∉ tabs) :
    res.count s = 1 ∧ (tabs.Nodup → res.Nodup) := by
  constructor
  · rw [perm_count_eq hp, List.count_cons_self, List.count_eq_zero.mpr hmem]
  · intro hnd
    exact hp.nodup_iff.mpr (List.nodup_cons.mpr ⟨hmem, hnd⟩)

/-- C10: the tab list stays pairwise distinct: `appendTab`/`prependTab`
return `false` and leave `_tabs` unchanged when the text fails validation
(non-string, blank, or containing angle brackets) or already exists; when the
text is valid and new they return `true` having inserted it exactly once (the
new list is the old one with one copy of the text inserted, preserving
distinctness); `deleteTab` removes exactly the first occurrence when present
— at most one — and touches nothing else. -/
theorem radioTabs_distinct :
    (∀ (tabs : List (List Char)) (t : JSVal) (a : Option (List Char)),
      validateText t = false →
      appendTab tabs t a = (false, tabs) ∧
        prependTab tabs t a = (false, tabs)) ∧
    (∀ (tabs : List (List Char)) (s : List Char) (a : Option (List Char)),
      tabs.contains s = true →
      appendTab tabs (.str s) a = (false, tabs) ∧
        prependTab tabs (.str s) a = (false, tabs)) ∧
    (∀ (tabs : List (List Char)) (s : List Char) (a : Option (List Char)),
      validateText (.str s) = true → tabs.contains s = false →
      ((appendTab tabs (.str s) a).1 = true ∧
        (appendTab tabs (.str s) a).2.Perm (s :: tabs) ∧
        (appendTab tabs (.str s) a).2.count s = 1 ∧
        (tabs.Nodup → (appendTab tabs (.str s) a).2.Nodup)) ∧
      ((prependTab tabs (.str s) a).1 = true ∧
        (prependTab tabs (.str s) a).2.Perm (s :: tabs) ∧
        (prependTab tabs (.str s) a).2.count s = 1 ∧
        (tabs.Nodup → (prependTab tabs (.str s) a).2.Nodup))) ∧
    (∀ (tabs : List (List Char)) (t : List Char),
      (deleteTab tabs t).count t = tabs.count t - 1 ∧
      (∀ u, u ≠ t → (deleteTab tabs t).count u = tabs.count u) ∧
      (tabs.Nodup → (deleteTab tabs t).Nodup)) := by
  refine ⟨?_, ?_, ?_, ?_⟩
  · intro tabs t a hv
    exact ⟨by unfold appendTab; rw [if_pos hv],
      by unfold prependTab; rw [if_pos hv]⟩
  · intro tabs s a hc
    by_cases hv : validateText (.str s) = false
    · exact ⟨by unfold appendTab; rw [if_pos hv],
        by unfold prependTab; rw [if_pos hv]⟩
    · constructor
      · unfold appendTab
        rw [if_neg hv]
        dsimp only
        rw [if_pos hc]
      · unfold prependTab
        rw [if_neg hv]
        dsimp only
        rw [if_pos hc]
  · intro tabs s a hv hc
    have hvf : ¬ validateText (.str s) = false := by simp [hv]
    have hmem : s ∉ tabs := by simpa using hc
    have hcf : ¬ tabs.contains s = true := by simpa using hmem
    constructor
    · unfold appendTab
      rw [if_neg hvf]
      dsimp only
      rw [if_neg hcf]
      by_cases hA : tabAnchorOk tabs a = true
      · rw [if_pos hA]
        have hp := spliceIn_perm tabs (tabs.indexOf (a.getD []) + 1) s
        exact ⟨rfl, hp, (inserted_once hp hmem).1, (inserted_once hp hmem).2⟩
      · rw [if_neg hA]
        have hp : (tabs ++ [s]).Perm (s :: tabs) :=
          List.perm_append_singleton s tabs
        exact ⟨rfl, hp, (inserted_once hp hmem).1, (inserted_once hp hmem).2⟩
    · unfold prependTab
      rw [if_neg hvf]
      dsimp only
      rw [if_neg hcf]
      by_cases hA : tabAnchorOk tabs a = true
      · rw [if_pos hA]
        have hp := spliceIn_perm tabs (tabs.indexOf (a.getD [])) s
        exact ⟨rfl, hp, (inserted_once hp hmem).1, (inserted_once hp hmem).2⟩
      · rw [if_neg hA]
        have hp : (s :: tabs).Perm (s :: tabs) := List.Perm.refl _
        exact ⟨rfl, hp, (inserted_once hp hmem).1, (inserted_once hp hmem).2⟩
  · intro tabs t
    rw [deleteTab_eq_erase]
    exact ⟨List.count_erase_self t tabs,
      fun u hu => List.count_erase_of_ne hu tabs,
      fun h => h.erase t⟩

/-- C10 witness: the rejection, insertion and deletion clauses at concrete
tab lists: blank text rejected; duplicate `"a"` rejected; valid new `"b"`
appended after `"a"` exactly once; deleting `"a"` from `["a","b"]`. -/
theorem radioTabs_distinct_witness :
    (appendTab [['a']] (.str [' ']) none = (false, [['a']]) ∧
      prependTab [['a']] (.str [' ']) none = (false, [['a']])) ∧
    (appendTab [['a']] (.str ['a']) none = (false, [['a']]) ∧
      prependTab [['a']] (.str ['a']) none = (false, [['a']])) ∧
    ((appendTab [['a']] (.str ['b']) (some ['a'])).1 = true ∧
      (appendTab [['a']] (.str ['b']) (some ['a'])).2.count ['b'] = 1) ∧
    ((deleteTab [['a'], ['b']] ['a']).count ['a'] =
      ([['a'], ['b']] : List (List Char)).count ['a'] - 1) :=
  ⟨radioTabs_distinct.1 [['a']] (.str [' ']) none (by decide),
    radioTabs_distinct.2.1 [['a']] ['a'] none (by decide),
    ⟨(radioTabs_distinct.2.2.1 [['a']] ['b'] (some ['a']) (by decide)
        (by decide)).1.1,
      (radioTabs_distinct.2.2.1 [['a']] ['b'] (some ['a']) (by decide)
        (by decide)).1.2.2.1⟩,
    (radioTabs_distinct.2.2.2 [['a'], ['b']] ['a']).1⟩
